import Mathlib

/-!
Shallow embedding of the `autocandidate` job-scraper pipeline.

The repository aggregates remote-job listings, normalizes them into a
tabular schema, deduplicates them by query-stripped URL against a
spreadsheet, and appends the surviving rows.  The embedding below models
the pure data transformations of `src/jobspy.py`, `src/main.py` and
`src/gspread_uploader.py`; HTTP fetching, Google-Sheets I/O, logging and
the wall clock are collaborators and appear as explicit parameters
(adapter functions, a `today` string, a `now` timestamp, `Except` values
for fallible reads).

Modelling conventions:
* Python strings are `List Char` (named `Str` here); `str.split`,
  `str.replace`, `str.strip`, `str.lower` are embedded character by
  character next to their uses.
* Python dicts holding a job posting (and pandas rows, whose columns are
  the dict keys) are insertion-ordered association lists
  `List (String × PyVal)`; pandas `df[c] = v` is an upsert, a missing
  cell (NaN) is `PyVal.pynone`.
* `datetime` values are POSIX seconds (`Int`); `timedelta(hours=h)` is
  `h * 3600` seconds.
* A Python call that may raise is a function into `Except Str ·`; a
  `try/except` that swallows the error matches on it.
-/

/-- Python strings, modeled as lists of characters. -/
abbrev Str := List Char

/-- The Python values that flow through the pipeline's dicts and
pandas cells: `None`, strings, ints, and `datetime` objects (as POSIX
seconds).  A list-valued kwarg (the `isinstance(explicit, (list, tuple))`
branch of the fallback `scrape_jobs`) is never produced by any caller in
this repository and is not modeled. -/
inductive PyVal where
  | pynone : PyVal
  | pystr (s : Str) : PyVal
  | pyint (n : Int) : PyVal
  | pydt (t : Int) : PyVal
  deriving DecidableEq, Repr

/-- A Python dict with string keys (also a pandas row keyed by column
name), in insertion order. -/
abbrev Row := List (String × PyVal)

/-- The key list of a dict / the column list of a row. -/
def keysOf (r : Row) : List String := r.map Prod.fst

/-- `r.get(c, d)` / reading a pandas cell with an explicit default. -/
def getColD (r : Row) (c : String) (d : PyVal) : PyVal := (r.lookup c).getD d

/-- pandas column assignment `df[c] = v` restricted to one row: replaces
the value at key `c` when present, appends the pair otherwise. -/
def setCol (r : Row) (k : String) (v : PyVal) : Row :=
  if (r.lookup k).isSome then r.map (fun p => if p.1 = k then (k, v) else p)
  else r ++ [(k, v)]

/-- Python truthiness for the values above: `None`, `""`, `0` and `[]`
are falsy. -/
def pyTruthy : PyVal → Bool
  | .pynone => false
  | .pystr s => !s.isEmpty
  | .pyint n => n != 0
  | .pydt _ => true

/-- Python `a or b` where `a` came from a `dict.get` (so may be absent):
the left value when truthy, otherwise `b`. -/
def pyOr (a : Option PyVal) (b : PyVal) : PyVal :=
  match a with
  | none => b
  | some v => if pyTruthy v then v else b

/-- Python `str(x)`.  `str` of a string is itself and `str(None)` is
`"None"`; the textual forms of ints and datetimes never reach a URL or
adapter-name position in the program, so their exact rendering is
inessential — datetimes get an opaque tag here. -/
def pyStrOf : PyVal → Str
  | .pystr s => s
  | .pynone => "None".toList
  | .pyint n => (toString n).toList
  | .pydt t => ("datetime:" ++ toString t).toList

/-- Python `s.lower()` on a site key (kernel-reducible form of
`String.toLower`). -/
def toLowerString (s : String) : String := ⟨s.data.map Char.toLower⟩

/-- Python `s.split(c)` for a one-character separator: the list of
(possibly empty) chunks between occurrences of `c`; always nonempty. -/
def splitOnChar (c : Char) : Str → List Str
  | [] => [[]]
  | x :: xs =>
    let rest := splitOnChar c xs
    if x = c then [] :: rest
    else
      match rest with
      | y :: ys => (x :: y) :: ys
      | [] => [[x]]

/-- `u.split("?")[0]` — the URL up to (excluding) the first question
mark.  This is the dedup-key transform of `main.py` line 124 and
`gspread_uploader.py` line 58. -/
def normalize_url (u : Str) : Str := (splitOnChar '?' u).headD []

/-- pandas `drop_duplicates(subset=.., keep="first")`, and likewise the
seen-set loop of `jobspy._normalize_jobs`: keep the first occurrence of
each key, skipping keys already in `seen`. -/
def dropDupFirst {α κ : Type} [DecidableEq κ] (key : α → κ) (seen : List κ) :
    List α → List α
  | [] => []
  | r :: rs =>
    if key r ∈ seen then dropDupFirst key seen rs
    else r :: dropDupFirst key (key r :: seen) rs


namespace jobspy

/-- `jobspy.py` lines 55-58: the unified column set of the first
`scrape_jobs` (the comment there claims these match `main.py`'s
`TARGET_COLS`). -/
def TARGET_COLS : List String :=
  ["Date Scraped", "Platform", "Job Title", "Company", "Location",
   "Job Type", "Salary Estimate", "Job URL", "Description Snippet",
   "Application Status"]

/-- `jobspy.py` line 258. -/
def PAYWALLED_OR_LOGIN : List String := ["flexjobs"]

/-- `jobspy.py` lines 27-52: site key to (friendly name, homepage). -/
def SITE_META : List (String × String × String) :=
  [("remotive", "Remotive", "https://remotive.com"),
   ("remoteok", "RemoteOK", "https://remoteok.com"),
   ("weworkremotely", "We Work Remotely", "https://weworkremotely.com"),
   ("pangian", "Pangian", "https://pangian.com"),
   ("simplyhired", "SimplyHired", "https://www.simplyhired.com"),
   ("jobspresso", "Jobspresso", "https://jobspresso.co"),
   ("outsourcely", "Outsourcely", "https://www.outsourcely.com"),
   ("toptal", "Toptal", "https://www.toptal.com"),
   ("skipthedrive", "Skip The Drive", "https://www.skipthedrive.com"),
   ("nodesk", "NoDesk", "https://nodesk.co"),
   ("remotehabits", "RemoteHabits", "https://remotehabits.com"),
   ("remotive_site", "Remotive site", "https://remotive.com"),
   ("remote4me", "Remote4Me", "https://remote4me.com"),
   ("remotees", "Remotees", "https://remotees.com"),
   ("europeremotely", "EuropeRemotely", "https://europeremotely.com"),
   ("remoteokeu", "Remote OK Europe (link)", "https://inkd.in/gr4C-mjp"),
   ("remoteofasia", "Remote of Asia", "https://inkd.in/ghrA_z9u"),
   ("angel", "AngelList / Wellfound", "https://wellfound.com"),
   ("linkedin", "LinkedIn", "https://www.linkedin.com"),
   ("freelancer", "Freelancer", "https://www.freelancer.com"),
   ("workingnomads", "Working Nomads", "https://www.workingnomads.com"),
   ("virtualvocations", "Virtual Vocations", "https://www.virtualvocations.com"),
   ("remotefreelance", "Remote Freelance", "https://remotefreelance.com"),
   ("remoterocketship", "Remote Rocketship", "https://inkd.in/gS2nRtV3")]

/-- `SITE_META.get(key, (key, None))[0]` (`jobspy.py` line 275). -/
def friendlyOf (key : String) : String :=
  ((SITE_META.lookup key).map Prod.fst).getD key

/-- `it.get(k, "N/A")`-style access used by `_rows_from_items`. -/
def itemGet (it : Row) (k : String) (dflt : String) : PyVal :=
  (it.lookup k).getD (.pystr dflt.toList)

/-- `jobspy.py` lines 73-90, `_rows_from_items`: build one unified row
per raw item.  `today` stands for `datetime.utcnow().strftime("%Y-%m-%d")`
(the wall clock is a collaborator).  Note the row carries the ten
`TARGET_COLS` fields plus `date_posted` — and nothing else. -/
def rows_from_items (today : Str) (items : List Row) (platform : String) :
    List Row :=
  items.map fun it =>
    [("Date Scraped", .pystr today),
     ("Platform", .pystr platform.toList),
     ("Job Title", itemGet it "title" "N/A"),
     ("Company", itemGet it "company" "N/A"),
     ("Location", itemGet it "location" "N/A"),
     ("Job Type", itemGet it "type" "N/A"),
     ("Salary Estimate", itemGet it "salary" "N/A"),
     ("Job URL", itemGet it "url" "N/A"),
     ("Description Snippet", itemGet it "snippet" "N/A"),
     ("Application Status", .pystr "To Apply".toList),
     ("date_posted", (it.lookup "date_posted").getD .pynone)]

/-- `val.replace("Z", "")` (`jobspy.py` line 310): Python `str.replace`
substitutes every occurrence of the pattern, so with an empty
replacement it removes every `Z` in the string, not only a trailing
one. -/
def removeZ (s : Str) : Str := s.filter (fun c => c ≠ 'Z')

/-- A date-string parser: `datetime.fromisoformat` and
`datetime.strptime(·, "%a, %d %b %Y %H:%M:%S %Z")` are stdlib
collaborators, abstracted as partial functions into POSIX seconds. -/
abbrev Parser := Str → Option Int

/-- `jobspy.py` lines 304-316, `parse_date`: `None` passes through as
`None`, a `datetime` passes through unchanged, a string is tried first
with `fromisoformat` after `replace("Z","")`, then with the RFC-822
feed format; every failure path is caught by the bare `except` clauses
and yields `None`.  A value of any other type raises inside both `try`
blocks (no `.replace`, and `strptime` rejects non-strings), so it also
yields `None`. -/
def parse_date (iso rfc : Parser) : PyVal → Option Int
  | .pynone => none
  | .pydt t => some t
  | .pystr s =>
    match iso (removeZ s) with
    | some t => some t
    | none => rfc s
  | .pyint _ => none

/-- The claim/spec wording of attempt (b): strip only a *trailing*
`Z`, then try ISO-8601.  Written from the spec for comparison with
`parse_date`, which embeds the source. -/
def stripTrailingZ (s : Str) : Str :=
  if s.getLast? = some 'Z' then s.dropLast else s

/-- `parse_date` as the spec describes it: identical to the source
except that attempt (b) strips only a trailing `Z`. -/
def parse_date_spec (iso rfc : Parser) : PyVal → Option Int
  | .pynone => none
  | .pydt t => some t
  | .pystr s =>
    match iso (stripTrailingZ s) with
    | some t => some t
    | none => rfc s
  | .pyint _ => none

/-- `jobspy.py` line 318: `keep = df['date_parsed'].isna() |
(df['date_parsed'] >= cutoff)`. -/
def recency_keep (cutoff : Int) : Option Int → Bool
  | none => true
  | some t => decide (cutoff ≤ t)

/-- The `date_parsed` helper column of `jobspy.py` line 317. -/
def date_parsed (iso rfc : Parser) (r : Row) : Option Int :=
  parse_date iso rfc (getColD r "date_posted" .pynone)

/-- `jobspy.py` lines 317-321: the recency filter over the aggregated
frame. -/
def recency_stage (iso rfc : Parser) (cutoff : Int) (rows : List Row) :
    List Row :=
  rows.filter (fun r => recency_keep cutoff (date_parsed iso rfc r))

/-- `jobspy.py` lines 295-296: `df["Job URL"] =
df["Job URL"].astype(str)`. -/
def astype_url_stage (rows : List Row) : List Row :=
  rows.map (fun r => setCol r "Job URL" (.pystr (pyStrOf (getColD r "Job URL" .pynone))))

/-- `jobspy.py` lines 326-331: fill absent `TARGET_COLS` with `"N/A"`
and reorder to `TARGET_COLS + ["date_posted"]`.  Rows built by
`_rows_from_items` always carry all eleven columns, but the fill is
kept for arbitrary rows. -/
def reorder_stage (r : Row) : Row :=
  (TARGET_COLS.map (fun c => (c, getColD r c (.pystr "N/A".toList)))) ++
    [("date_posted", getColD r "date_posted" .pynone)]

/-- The post-aggregation half of the first `scrape_jobs`
(`jobspy.py` lines 293-332): URL stringification, recency filter,
column fill and reorder. -/
def post_stage (iso rfc : Parser) (cutoff : Int) (rows : List Row) :
    List Row :=
  (recency_stage iso rfc cutoff (astype_url_stage rows)).map reorder_stage

/-- A per-site adapter as the first `scrape_jobs` calls it:
`adapter(search_term=…, location=…, results_wanted=…)`, returning raw
items or raising (modeled by `Except.error`).  The concrete adapters
(`fetch_remotive` and friends) are HTTP/parse glue — collaborators. -/
abbrev Adapter := PyVal → PyVal → Int → Except Str (List Row)

/-- `jobspy.py` lines 260-332: the first (later shadowed) `scrape_jobs`.
`env` models the `ADAPTERS` registry lookup, `today` and `now` the wall
clock, `iso`/`rfc` the stdlib date parsers.  A paywalled key or a key
with no adapter is skipped; an adapter exception is caught and the site
contributes nothing (lines 283-288). -/
def scrape_jobs (env : String → Option Adapter) (today : Str)
    (iso rfc : Parser) (now : Int) (sites : List String)
    (search_term location : PyVal) (results_wanted hours_old : Int) :
    List Row :=
  let all_rows := sites.foldl
    (fun acc s =>
      let key := toLowerString s
      if key ∈ PAYWALLED_OR_LOGIN then acc
      else
        match env key with
        | none => acc
        | some adapter =>
          match adapter search_term location results_wanted with
          | .error _ => acc
          | .ok items => acc ++ rows_from_items today items (friendlyOf key))
    []
  if all_rows.isEmpty then []
  else post_stage iso rfc (now - hours_old * 3600) all_rows

end jobspy

namespace jobspy

namespace patch

/-!
`jobspy.py` lines 333-456, the "robust fallback scrape_jobs override".
Because Python executes module code top to bottom, this second
`def scrape_jobs` *shadows* the first one above: `from jobspy import
scrape_jobs` in `main.py` binds this fallback.
-/

/-- `jobspy.py` line 344. -/
def KNOWN_ADAPTERS : List String :=
  ["indeed", "naukri", "linkedin", "glassdoor", "monster", "fake"]

/-- `jobspy.py` line 345. -/
def DEFAULT_ADAPTERS : List String := ["remotive", "remoteok"]

/-- Python `s.strip()`: drop leading and trailing whitespace. -/
def stripStr (s : Str) : Str :=
  ((s.dropWhile Char.isWhitespace).reverse.dropWhile Char.isWhitespace).reverse

/-- Python `s.lower()`. -/
def toLowerStr (s : Str) : Str := s.map Char.toLower

/-- Python `int(x)` on a string: optional sign, then decimal digits
(after stripping surrounding whitespace); `none` when it raises. -/
def digitsVal (s : Str) : Option Nat :=
  if s ≠ [] ∧ s.all Char.isDigit then
    some (s.foldl (fun a c => a * 10 + (c.toNat - 48)) 0)
  else none

def strToInt (s : Str) : Option Int :=
  match stripStr s with
  | '-' :: rest => (digitsVal rest).map (fun n => -(n : Int))
  | t => (digitsVal t).map (fun n => (n : Int))

/-- Python `int(x)` over our value type: ints pass through, numeric
strings parse, everything else raises (`none`). -/
def pyToInt : PyVal → Option Int
  | .pyint n => some n
  | .pystr s => strToInt s
  | _ => none

/-- `jobspy.py` line 422: `kwargs.get("query") or kwargs.get("terms")
or kwargs.get("q") or ""`. -/
def queryOf (kw : Row) : PyVal :=
  pyOr (kw.lookup "query")
    (pyOr (kw.lookup "terms") (pyOr (kw.lookup "q") (.pystr [])))

/-- `jobspy.py` line 413: `kwargs.get("location") or kwargs.get("loc")
or os.environ.get("SEARCH_LOCATION")`; the environment is the
collaborator `envLoc`. -/
def locationOf (kw : Row) (envLoc : Option Str) : PyVal :=
  pyOr (kw.lookup "location")
    (pyOr (kw.lookup "loc")
      (match envLoc with | some s => .pystr s | none => .pynone))

/-- `jobspy.py` lines 415-419: `jobs_per_term`/`limit` kwarg, else the
`JOBS_PER_TERM` env var, else 12; then `int(...)` with a fallback
to 12 when the conversion raises. -/
def limitOf (kw : Row) (envLimit : Option Str) : Int :=
  let v := pyOr (kw.lookup "jobs_per_term")
    (pyOr (kw.lookup "limit")
      (pyOr (envLimit.map (fun s => .pystr s)) (.pyint 12)))
  (pyToInt v).getD 12

/-- `jobspy.py` lines 429-438: an explicit `adapters`/`adapter`/
`adapters_list` kwarg, comma-split, stripped and lowercased; the
defaults when absent or empty.  (Callers in this repository never pass
a list-valued kwarg, so only the string form is modeled.) -/
def adaptersOf (kw : Row) : List Str :=
  let explicit := pyOr (kw.lookup "adapters")
    (pyOr (kw.lookup "adapter") ((kw.lookup "adapters_list").getD .pynone))
  let parsed :=
    if pyTruthy explicit then
      ((splitOnChar ',' (pyStrOf explicit)).filter
          (fun s => !(stripStr s).isEmpty)).map
        (fun s => toLowerStr (stripStr s))
    else []
  if parsed.isEmpty then DEFAULT_ADAPTERS.map (fun s => s.toList) else parsed

/-- An imported adapter module's entry point (`search`/`scrape`/`run`/
callable, lines 369-378), which may raise: query (or `None`), location,
limit, to a list of job dicts. -/
abbrev AdapterMod := PyVal → PyVal → Int → Except Str (List Row)

/-- `jobspy.py` lines 365-381, `_call_adapter_search`: calls the module
with `query=query or None`; any exception is logged and swallowed,
yielding `[]`. -/
def call_adapter_search (m : AdapterMod) (query location : PyVal)
    (limit : Int) : List Row :=
  match m (if pyTruthy query then query else .pynone) location limit with
  | .ok js => js
  | .error _ => []

/-- `jobspy.py` lines 389-393: the dedup key of `_normalize_jobs` —
`j.get("url") or j.get("link")` when truthy, else the tuple
`(j.get("title"), j.get("company"))`.  (Adapters return dicts; the
non-dict `str(j)` fallback is never reached by rows of this shape.) -/
def jobKey (j : Row) : PyVal ⊕ (PyVal × PyVal) :=
  let url := pyOr (j.lookup "url") ((j.lookup "link").getD .pynone)
  if pyTruthy url then Sum.inl url
  else Sum.inr ((j.lookup "title").getD .pynone, (j.lookup "company").getD .pynone)

/-- `jobspy.py` lines 383-401, `_normalize_jobs`: keep the first job
for each key. -/
def normalize_jobs (jobs : List Row) : List Row :=
  dropDupFirst jobKey [] jobs

/-- `jobspy.py` lines 403-454: the effective `scrape_jobs`.  Positional
arguments land in `*args` and are never read; the query is taken only
from the `query`/`terms`/`q` kwargs (defaulting to `""`); adapter
modules are resolved by `_import_adapter_module` (modeled by `env`,
`none` = import failed) and invoked through `_call_adapter_search`;
results are concatenated and deduped by `_normalize_jobs`. -/
def scrape_jobs (env : Str → Option AdapterMod) (envLoc envLimit : Option Str)
    (args : List PyVal) (kw : Row) : List Row :=
  let location := locationOf kw envLoc
  let limit := limitOf kw envLimit
  let query := queryOf kw
  let adapters_to_try := adaptersOf kw
  let all_jobs := adapters_to_try.foldl
    (fun acc name =>
      match env name with
      | none => acc
      | some m => acc ++ call_adapter_search m query location limit)
    []
  normalize_jobs all_jobs

end patch

end jobspy

namespace gspread_uploader

/-- pandas `astype(str)` on a cell that may be missing: a missing cell
is NaN, which `astype(str)` renders as `"nan"`. -/
def astypeStrVal : Option PyVal → Str
  | some v => pyStrOf v
  | none => "nan".toList

/-- `gspread_uploader.py` lines 43-59, `fetch_existing_urls`: the sheet
read (`sheet.get_all_records()`) is a collaborator that may raise,
modeled as an `Except` input.  On failure the error is logged and the
empty set is returned; on success, if any record carries a `Job URL`
column, the query-stripped URLs of that column form the result
(Python returns a `set`; membership is all the callers use, so a list
models it). -/
def fetch_existing_urls (res : Except Str (List Row)) : List Str :=
  match res with
  | .error _ => []
  | .ok recs =>
    if recs.isEmpty then []
    else if recs.any (fun r => (r.lookup "Job URL").isSome) then
      recs.map (fun r => normalize_url (astypeStrVal (r.lookup "Job URL")))
    else []

end gspread_uploader

namespace main

/-- `main.py` lines 29-32: main's own `TARGET_COLS` — note `Posted`,
`Salary`, `Description`, `Raw` where `jobspy.TARGET_COLS` has
`Job Type`, `Salary Estimate`, `Description Snippet`,
`Application Status`. -/
def TARGET_COLS : List String :=
  ["Date Scraped", "Platform", "Job Title", "Company", "Location",
   "Posted", "Salary", "Job URL", "Description", "Raw"]

/-- The ordered column union `pd.DataFrame(raw_jobs).columns`: every
key of every dict, in first-appearance order. -/
def colsUnion (rows : List Row) : List String :=
  rows.foldl (fun acc r =>
    (keysOf r).foldl (fun a c => if c ∈ a then a else a ++ [c]) acc) []

/-- The cell of row `r` in column `c` after `main.py` lines 119-122:
a value the dict carries; NaN (`pynone`) when another dict introduced
the column; `""` when the column was absent everywhere and was created
by `df[c] = ""`. -/
def projVal (allCols : List String) (r : Row) (c : String) : PyVal :=
  match r.lookup c with
  | some v => v
  | none => if c ∈ allCols then .pynone else .pystr []

/-- The `Job URL` string of a row (`astype(str)` of the cell). -/
def urlOf (r : Row) : Str := pyStrOf (getColD r "Job URL" .pynone)

/-- `main.py` line 124: `df["Job URL"] =
df["Job URL"].astype(str).apply(lambda u: u.split("?")[0])`. -/
def url_stage (rows : List Row) : List Row :=
  rows.map (fun r => setCol r "Job URL" (.pystr (normalize_url (urlOf r))))

/-- The dedup key of `drop_duplicates(subset=["Job URL"])`: the cell
value of the `Job URL` column. -/
def urlKey (r : Row) : PyVal := getColD r "Job URL" .pynone

/-- `main.py` lines 113-126, `normalize_and_filter`: `None` becomes the
empty frame; otherwise the frame is projected onto `TARGET_COLS`
(missing columns filled), URLs are query-stripped, and intra-batch
duplicates by `Job URL` are dropped keeping the first. -/
def normalize_and_filter (raw_jobs : Option (List Row)) : List Row :=
  match raw_jobs with
  | none => []
  | some rows =>
    let allCols := colsUnion rows
    let projected := rows.map
      (fun r => TARGET_COLS.map (fun c => (c, projVal allCols r c)))
    dropDupFirst urlKey [] (url_stage projected)

/-- The deduplication the run applies to a batch: the URL-normalizing
intra-batch stage of `normalize_and_filter` (`main.py` lines 124-125)
followed by the cross-run filter of `main.py` line 156
(`processed[~processed["Job URL"].isin(existing)]`). -/
def dedupe (batch : List Row) (existing : List Str) : List Row :=
  (dropDupFirst urlKey [] (url_stage batch)).filter
    (fun r => !(existing.contains (urlOf r)))

/-- `main.py` lines 141-156, the dataflow from the sheet read to the
rows handed to `append_new_rows`: load `existing` (empty on read
failure), normalize and intra-dedup the batch, drop rows whose URL the
sheet already holds. -/
def main_new_rows (sheet : Except Str (List Row))
    (raw_jobs : Option (List Row)) : List Row :=
  let existing := gspread_uploader.fetch_existing_urls sheet
  (normalize_and_filter raw_jobs).filter
    (fun r => !(existing.contains (urlOf r)))

end main

/-!
## Concrete stand-ins used by counterexamples and witnesses

`fromisoformat0` is a finite stand-in for `datetime.fromisoformat`,
consistent with CPython at the inputs it is applied to: it accepts the
ISO-8601 string `2024-01-02T03:04:05` (as 100 for readability) and
rejects everything else — in particular `Z2024-01-02T03:04:05`, which
`datetime.fromisoformat` also rejects.  `strptime0` is a feed-date
parser that fails on every input.
-/

def fromisoformat0 : jobspy.Parser :=
  fun s => if s = "2024-01-02T03:04:05".toList then some 100 else none

def strptime0 : jobspy.Parser := fun _ => none

/-- An adapter that raises on every call (the failing adapter of the
adapter-isolation scenario). -/
def raisingAdapter (err : Str) : jobspy.Adapter := fun _ _ _ => .error err

/-- An `ADAPTERS` registry in which `remotive` always raises and
`remoteok` behaves as `fB`. -/
def envAB (err : Str) (fB : jobspy.Adapter) : String → Option jobspy.Adapter :=
  fun n =>
    if n = "remotive" then some (raisingAdapter err)
    else if n = "remoteok" then some fB else none

/-- An `ADAPTERS` registry containing only `remoteok`, behaving as
`fB`. -/
def envOnlyB (fB : jobspy.Adapter) : String → Option jobspy.Adapter :=
  fun n => if n = "remoteok" then some fB else none

/-- A succeeding adapter returning one fixed item (witness scenario). -/
def okAdapter : jobspy.Adapter :=
  fun _ _ _ => .ok [[("url", .pystr "https://x.co/j/1".toList)]]

/-! ## Helper lemmas -/

theorem splitOnChar_ne_nil (c : Char) (l : Str) : splitOnChar c l ≠ [] := by
  cases l with
  | nil => simp [splitOnChar]
  | cons x xs =>
    simp only [splitOnChar]
    split
    · simp
    · split <;> simp

theorem splitOnChar_head (c : Char) (l : Str) :
    (splitOnChar c l).headD [] = l.takeWhile (fun a => a ≠ c) := by
  induction l with
  | nil => simp [splitOnChar, List.takeWhile]
  | cons x xs ih =>
    simp only [splitOnChar, List.takeWhile]
    by_cases hx : x = c
    · simp [hx]
    · simp only [if_neg hx]
      have hne := splitOnChar_ne_nil c xs
      cases hrest : splitOnChar c xs with
      | nil => exact absurd hrest hne
      | cons y ys =>
        have : y = xs.takeWhile (fun a => a ≠ c) := by
          simpa [hrest] using ih
        simp [hx, this]

theorem takeWhile_self_idem (p : Char → Bool) (l : Str) :
    (l.takeWhile p).takeWhile p = l.takeWhile p := by
  induction l with
  | nil => simp
  | cons x xs ih =>
    by_cases hx : p x
    · simp [List.takeWhile, hx, ih]
    · simp [List.takeWhile, hx]

/-- Stripping the query string is idempotent. -/
theorem normalize_url_idem (u : Str) :
    normalize_url (normalize_url u) = normalize_url u := by
  simp only [normalize_url, splitOnChar_head]
  exact takeWhile_self_idem _ u

theorem mem_of_mem_dropDupFirst {α κ : Type} [DecidableEq κ] (key : α → κ)
    (seen : List κ) (l : List α) (r : α) (h : r ∈ dropDupFirst key seen l) :
    r ∈ l := by
  induction l generalizing seen with
  | nil => simp [dropDupFirst] at h
  | cons x xs ih =>
    simp only [dropDupFirst] at h
    split at h
    · exact List.mem_cons_of_mem _ (ih _ h)
    · rcases List.mem_cons.mp h with h | h
      · exact h ▸ List.mem_cons_self _ _
      · exact List.mem_cons_of_mem _ (ih _ h)

theorem key_not_seen_of_mem_dropDupFirst {α κ : Type} [DecidableEq κ]
    (key : α → κ) (seen : List κ) (l : List α) (r : α)
    (h : r ∈ dropDupFirst key seen l) : key r ∉ seen := by
  induction l generalizing seen with
  | nil => simp [dropDupFirst] at h
  | cons x xs ih =>
    simp only [dropDupFirst] at h
    split at h
    · exact ih _ h
    · rcases List.mem_cons.mp h with h | h
      · subst h; assumption
      · have := ih _ h
        intro hc
        exact this (List.mem_cons_of_mem _ hc)

theorem pairwise_dropDupFirst {α κ : Type} [DecidableEq κ] (key : α → κ)
    (seen : List κ) (l : List α) :
    (dropDupFirst key seen l).Pairwise (fun a b => key a ≠ key b) := by
  induction l generalizing seen with
  | nil => simp [dropDupFirst]
  | cons x xs ih =>
    simp only [dropDupFirst]
    split
    · exact ih _
    · refine List.Pairwise.cons ?_ (ih _)
      intro b hb hkey
      have := key_not_seen_of_mem_dropDupFirst key _ xs b hb
      exact this (hkey ▸ List.mem_cons_self _ _)

theorem dropDupFirst_eq_self {α κ : Type} [DecidableEq κ] (key : α → κ) :
    ∀ (l : List α), l.Pairwise (fun a b => key a ≠ key b) →
      ∀ seen : List κ, (∀ r ∈ l, key r ∉ seen) →
        dropDupFirst key seen l = l := by
  intro l
  induction l with
  | nil => intro _ seen _; rfl
  | cons x xs ih =>
    intro hpw seen hseen
    have hx : key x ∉ seen := hseen x (List.mem_cons_self _ _)
    simp only [dropDupFirst, if_neg hx]
    have h2 : ∀ r ∈ xs, key r ∉ key x :: seen := by
      intro r hr hc
      rcases List.mem_cons.mp hc with hc | hc
      · exact (List.pairwise_cons.mp hpw).1 r hr hc.symm
      · exact hseen r (List.mem_cons_of_mem _ hr) hc
    rw [ih (List.pairwise_cons.mp hpw).2 _ h2]

theorem lookup_cons (a : String) (b : PyVal) (ps : Row) (k : String) :
    ((a, b) :: ps).lookup k = if a = k then some b else ps.lookup k := by
  simp only [List.lookup]
  by_cases h : a = k
  · subst h; simp
  · have hb : (k == a) = false := beq_eq_false_iff_ne.mpr (Ne.symm h)
    simp [h, hb]

theorem lookup_eq_none_forall (r : Row) (k : String) (h : r.lookup k = none) :
    ∀ p ∈ r, p.1 ≠ k := by
  induction r with
  | nil => intro p hp; cases hp
  | cons q qs ih =>
    rcases q with ⟨a, b⟩
    rw [lookup_cons] at h
    split at h
    · cases h
    · intro p hp
      rcases List.mem_cons.mp hp with hp | hp
      · subst hp; assumption
      · exact ih h p hp

theorem lookup_append_single (qs : Row) (k : String) (v : PyVal)
    (h : qs.lookup k = none) : (qs ++ [(k, v)]).lookup k = some v := by
  induction qs with
  | nil => simp [lookup_cons]
  | cons q qs ih =>
    rcases q with ⟨a, b⟩
    rw [lookup_cons] at h
    by_cases ha : a = k
    · rw [if_pos ha] at h; cases h
    · rw [if_neg ha] at h
      simp only [List.cons_append]
      rw [lookup_cons, if_neg ha]
      exact ih h

theorem lookup_map_set (qs : Row) (k : String) (v : PyVal)
    (h : (qs.lookup k).isSome) :
    (qs.map (fun p => if p.1 = k then (k, v) else p)).lookup k = some v := by
  induction qs with
  | nil => simp [List.lookup] at h
  | cons q qs ih =>
    rcases q with ⟨a, b⟩
    by_cases ha : a = k
    · simp [ha, lookup_cons]
    · rw [lookup_cons, if_neg ha] at h
      simpa [ha, lookup_cons] using ih h

theorem lookup_setCol (r : Row) (k : String) (v : PyVal) :
    (setCol r k v).lookup k = some v := by
  by_cases h : (r.lookup k).isSome
  · rw [setCol, if_pos h]
    exact lookup_map_set r k v h
  · rw [setCol, if_neg h]
    rw [Option.not_isSome_iff_eq_none] at h
    exact lookup_append_single r k v h

theorem setCol_setCol (r : Row) (k : String) (v w : PyVal) :
    setCol (setCol r k v) k w = setCol r k w := by
  by_cases h : (r.lookup k).isSome
  · have h1 : ((setCol r k v).lookup k).isSome := by
      rw [lookup_setCol]; rfl
    simp only [setCol, if_pos h, if_pos ((by
      simpa [setCol, if_pos h] using h1 : ((r.map fun p =>
        if p.1 = k then (k, v) else p).lookup k).isSome))]
    rw [List.map_map]
    refine List.map_congr_left ?_
    intro p _
    by_cases hp : p.1 = k <;> simp [hp]
  · have h1 : ((setCol r k v).lookup k).isSome := by
      rw [lookup_setCol]; rfl
    have hforall := lookup_eq_none_forall r k (Option.not_isSome_iff_eq_none.mp h)
    simp only [setCol, if_neg h] at h1 ⊢
    rw [if_pos h1, List.map_append]
    have hmap : (r.map fun p => if p.1 = k then (k, w) else p) = r := by
      refine List.map_congr_left ?_ |>.trans (List.map_id r)
      intro p hp
      simp [hforall p hp]
    simp [hmap]

theorem keysOf_setCol_of_isSome (r : Row) (k : String) (v : PyVal)
    (h : (r.lookup k).isSome) : keysOf (setCol r k v) = keysOf r := by
  simp only [setCol, if_pos h, keysOf, List.map_map]
  refine List.map_congr_left ?_
  intro p _
  by_cases hp : p.1 = k <;> simp [hp]

theorem lookup_isSome_of_mem_keys (r : Row) (k : String) (h : k ∈ keysOf r) :
    (r.lookup k).isSome := by
  induction r with
  | nil => cases h
  | cons q qs ih =>
    rcases q with ⟨a, b⟩
    rw [lookup_cons]
    by_cases ha : a = k
    · simp [ha]
    · rw [if_neg ha]
      apply ih
      rcases List.mem_cons.mp h with h | h
      · exact absurd h.symm ha
      · exact h

theorem keysOf_map_pair (cols : List String) (f : String → PyVal) :
    keysOf (cols.map (fun c => (c, f c))) = cols := by
  simp only [keysOf, List.map_map]
  exact (List.map_congr_left (fun c _ => rfl)).trans (List.map_id cols)

theorem urlOf_setCol (r : Row) (s : Str) :
    main.urlOf (setCol r "Job URL" (.pystr s)) = s := by
  simp [main.urlOf, getColD, lookup_setCol, pyStrOf]

theorem urlKey_setCol (r : Row) (v : PyVal) :
    main.urlKey (setCol r "Job URL" v) = v := by
  simp [main.urlKey, getColD, lookup_setCol]

theorem url_stage_mem_props (rows : List Row) (r : Row)
    (h : r ∈ main.url_stage rows) :
    main.urlKey r = .pystr (main.urlOf r) ∧
      normalize_url (main.urlOf r) = main.urlOf r := by
  rcases List.mem_map.mp h with ⟨q, _, rfl⟩
  refine ⟨?_, ?_⟩
  · rw [urlKey_setCol, urlOf_setCol]
  · rw [urlOf_setCol]; exact normalize_url_idem _

theorem setCol_of_mem_url_stage (rows : List Row) (r : Row)
    (h : r ∈ main.url_stage rows) :
    setCol r "Job URL" (.pystr (normalize_url (main.urlOf r))) = r := by
  rcases List.mem_map.mp h with ⟨q, _, rfl⟩
  rw [urlOf_setCol, normalize_url_idem, setCol_setCol]

/-! ## Claim theorems -/

/-- C6: URL normalization is idempotent — for every URL string `u`,
`normalize_url (normalize_url u) = normalize_url u`, where
`normalize_url` strips everything from the first question mark
onward. -/
theorem c6_normalize_url_idempotent (u : Str) :
    normalize_url (normalize_url u) = normalize_url u :=
  normalize_url_idem u

/-- C3: the recency filter keeps a row iff its parsed `posted_at` is
null or at least `now - horizon_hours`; the boundary is inclusive (a
timestamp exactly at the cutoff survives, one second older does not),
and a null `posted_at` survives every horizon.  The last conjunct ties
the keep predicate to the row filter of `scrape_jobs` (`jobspy.py`
lines 317-319). -/
theorem c3_recency_filter_boundary :
    (∀ (now h : Int) (d : Option Int),
        jobspy.recency_keep (now - h * 3600) d = true ↔
          (d = none ∨ ∃ t : Int, d = some t ∧ now - h * 3600 ≤ t))
    ∧ (∀ now h : Int,
        jobspy.recency_keep (now - h * 3600) (some (now - h * 3600)) = true)
    ∧ (∀ now h : Int,
        jobspy.recency_keep (now - h * 3600) (some (now - h * 3600 - 1)) = false)
    ∧ (∀ now h : Int, jobspy.recency_keep (now - h * 3600) none = true)
    ∧ (∀ (iso rfc : jobspy.Parser) (cutoff : Int) (rows : List Row) (r : Row),
        r ∈ jobspy.recency_stage iso rfc cutoff rows ↔
          r ∈ rows ∧
            jobspy.recency_keep cutoff (jobspy.date_parsed iso rfc r) = true) := by
  refine ⟨?_, ?_, ?_, ?_, ?_⟩
  · intro now h d
    cases d with
    | none => simp [jobspy.recency_keep]
    | some t => simp [jobspy.recency_keep]
  · intro now h; simp [jobspy.recency_keep]
  · intro now h
    simp only [jobspy.recency_keep, decide_eq_false_iff_not]
    omega
  · intro now h; rfl
  · intro iso rfc cutoff rows r
    simp [jobspy.recency_stage, List.mem_filter]

/-- C9: when the Sink read fails (`sheet.get_all_records()` raises),
`fetch_existing_urls` returns the empty set and the run continues: the
rows handed onward are exactly those of a run whose existing set is
empty. -/
theorem c9_sink_read_failure_recovers (e : Str) (raw : Option (List Row)) :
    gspread_uploader.fetch_existing_urls (.error e) = []
    ∧ main.main_new_rows (.error e) raw = main.normalize_and_filter raw := by
  refine ⟨rfl, ?_⟩
  simp [main.main_new_rows, gspread_uploader.fetch_existing_urls, List.contains]

/-- C10: the effective `scrape_jobs` (the fallback that shadows the
first definition) never reads its positional arguments, and when none
of the `query`/`terms`/`q` kwargs is supplied the query it hands the
adapters is the empty string. -/
theorem c10_positional_terms_ignored :
    (∀ (env : Str → Option jobspy.patch.AdapterMod)
        (envLoc envLimit : Option Str) (args1 args2 : List PyVal) (kw : Row),
        jobspy.patch.scrape_jobs env envLoc envLimit args1 kw
          = jobspy.patch.scrape_jobs env envLoc envLimit args2 kw)
    ∧ (∀ kw : Row, kw.lookup "query" = none → kw.lookup "terms" = none →
        kw.lookup "q" = none → jobspy.patch.queryOf kw = .pystr []) := by
  constructor
  · intro env envLoc envLimit args1 args2 kw; rfl
  · intro kw h1 h2 h3
    simp [jobspy.patch.queryOf, h1, h2, h3, pyOr]

/-- Witness for C10 at the arguments `main.py` effectively produces:
`call_scrape_jobs` inspects the fallback's `(*args, **kwargs)`
signature, finds no accepted keyword, and calls positionally — so the
kwargs carry no `query`/`terms`/`q` key. -/
theorem c10_positional_terms_ignored_witness :
    jobspy.patch.scrape_jobs (fun _ => none) none none
        [PyVal.pystr "aws".toList] [("location", PyVal.pystr "Remote".toList)]
      = jobspy.patch.scrape_jobs (fun _ => none) none none []
          [("location", PyVal.pystr "Remote".toList)]
    ∧ jobspy.patch.queryOf [("location", PyVal.pystr "Remote".toList)]
        = .pystr [] :=
  ⟨c10_positional_terms_ignored.1 _ _ _ _ _ _,
   c10_positional_terms_ignored.2 _ (by decide) (by decide) (by decide)⟩

/-- C8 as stated is false: a row built by `_rows_from_items` carries no
`search_term` field — shown at a concrete item. -/
theorem c8_counterexample :
    ¬ (∀ r ∈ jobspy.rows_from_items "2024-01-01".toList
          [[("title", PyVal.pystr "Eng".toList)]] "Remotive",
        "search_term" ∈ keysOf r) := by decide

/-- C8 (amended): every row produced by `_rows_from_items` carries
exactly the ten `jobspy.TARGET_COLS` fields plus `date_posted`, and no
`search_term` field. -/
theorem c8_row_fields (today : Str) (items : List Row) (platform : String) :
    ∀ r ∈ jobspy.rows_from_items today items platform,
      keysOf r = jobspy.TARGET_COLS ++ ["date_posted"]
      ∧ "search_term" ∉ keysOf r := by
  intro r hr
  rcases List.mem_map.mp hr with ⟨it, _, rfl⟩
  have h1 : keysOf
      [("Date Scraped", PyVal.pystr today),
       ("Platform", PyVal.pystr platform.toList),
       ("Job Title", jobspy.itemGet it "title" "N/A"),
       ("Company", jobspy.itemGet it "company" "N/A"),
       ("Location", jobspy.itemGet it "location" "N/A"),
       ("Job Type", jobspy.itemGet it "type" "N/A"),
       ("Salary Estimate", jobspy.itemGet it "salary" "N/A"),
       ("Job URL", jobspy.itemGet it "url" "N/A"),
       ("Description Snippet", jobspy.itemGet it "snippet" "N/A"),
       ("Application Status", PyVal.pystr "To Apply".toList),
       ("date_posted", (it.lookup "date_posted").getD PyVal.pynone)]
      = jobspy.TARGET_COLS ++ ["date_posted"] := rfl
  exact ⟨h1, by rw [h1]; decide⟩

/-- Witness for C8 (amended) at a concrete item. -/
theorem c8_row_fields_witness :
    "search_term" ∉ keysOf
      ((jobspy.rows_from_items "2024-01-01".toList
          [[("title", PyVal.pystr "Eng".toList)]] "Remotive").headD []) :=
  (c8_row_fields "2024-01-01".toList [[("title", PyVal.pystr "Eng".toList)]]
    "Remotive"
    ((jobspy.rows_from_items "2024-01-01".toList
        [[("title", PyVal.pystr "Eng".toList)]] "Remotive").headD [])
    (by decide)).2

/-- C4 as stated is false: the code's attempt (b) is not "ISO-8601 with
a trailing Z stripped" — `val.replace("Z","")` removes every `Z`.  On
the string `Z2024-01-02T03:04:05` (no trailing `Z`; rejected by
`fromisoformat`, whose behavior `fromisoformat0` reproduces at the two
strings involved) the code parses successfully while the described
chain yields null. -/
theorem c4_counterexample :
    jobspy.parse_date fromisoformat0 strptime0
        (.pystr "Z2024-01-02T03:04:05".toList) = some 100
    ∧ jobspy.parse_date_spec fromisoformat0 strptime0
        (.pystr "Z2024-01-02T03:04:05".toList) = none := by decide

/-- C4 (amended): for every raw posted-date value, parsing tries in
order (a) pass-through of a structured timestamp, (b) ISO-8601 after
removing every occurrence of `Z` (not only a trailing one), (c) the
RFC-822-style feed format; a null input stays null, a string on which
both parsers fail yields null, the function is total (never raises),
and a row whose parse is null is kept by the recency stage rather than
dropped. -/
theorem c4_parse_date_chain (iso rfc : jobspy.Parser) :
    jobspy.parse_date iso rfc .pynone = none
    ∧ (∀ t : Int, jobspy.parse_date iso rfc (.pydt t) = some t)
    ∧ (∀ (s : Str) (t : Int), iso (jobspy.removeZ s) = some t →
        jobspy.parse_date iso rfc (.pystr s) = some t)
    ∧ (∀ s : Str, iso (jobspy.removeZ s) = none →
        jobspy.parse_date iso rfc (.pystr s) = rfc s)
    ∧ (∀ (v : PyVal) (cutoff : Int), jobspy.parse_date iso rfc v = none →
        jobspy.recency_keep cutoff (jobspy.parse_date iso rfc v) = true) := by
  refine ⟨rfl, fun t => rfl, ?_, ?_, ?_⟩
  · intro s t h; simp [jobspy.parse_date, h]
  · intro s h; simp [jobspy.parse_date, h]
  · intro v cutoff h; rw [h]; rfl

/-- Witness for C4 (amended): a genuine trailing-Z ISO string parses
through attempt (b), and an unparseable string yields null yet survives
the recency keep-predicate. -/
theorem c4_parse_date_chain_witness :
    jobspy.parse_date fromisoformat0 strptime0
        (.pystr "2024-01-02T03:04:05Z".toList) = some 100
    ∧ jobspy.recency_keep 0
        (jobspy.parse_date fromisoformat0 strptime0
          (.pystr "not a date".toList)) = true :=
  ⟨(c4_parse_date_chain fromisoformat0 strptime0).2.2.1 _ 100 (by decide),
   (c4_parse_date_chain fromisoformat0 strptime0).2.2.2.2 _ 0 (by decide)⟩

/-- C1 as stated is false: a concrete run hands the Sink a row whose
column set is main's `TARGET_COLS` (`…, Posted, Salary, Job URL,
Description, Raw`), not the claimed `…, Job Type, Salary Estimate,
Job URL, Description Snippet, Application Status`. -/
theorem c1_counterexample :
    ¬ (∀ r ∈ main.main_new_rows (.ok [])
          (some [[("Job URL", PyVal.pystr "https://a.co/1?utm=x".toList)]]),
        keysOf r = jobspy.TARGET_COLS) := by decide

/-- C1 (amended): every row handed to the Sink Writer uses exactly the
fixed ordered column set of `main.TARGET_COLS` — `Date Scraped,
Platform, Job Title, Company, Location, Posted, Salary, Job URL,
Description, Raw` — in that order, for every run. -/
theorem c1_sink_columns (sheet : Except Str (List Row))
    (raw : Option (List Row)) :
    ∀ r ∈ main.main_new_rows sheet raw, keysOf r = main.TARGET_COLS := by
  intro r hr
  have hr1 : r ∈ main.normalize_and_filter raw := by
    rw [main.main_new_rows] at hr
    exact (List.mem_filter.mp hr).1
  cases raw with
  | none => simp [main.normalize_and_filter] at hr1
  | some rows =>
    simp only [main.normalize_and_filter] at hr1
    have hr2 := mem_of_mem_dropDupFirst _ _ _ _ hr1
    rcases List.mem_map.mp hr2 with ⟨p, hp, rfl⟩
    rcases List.mem_map.mp hp with ⟨q, _, rfl⟩
    rw [keysOf_setCol_of_isSome, keysOf_map_pair]
    apply lookup_isSome_of_mem_keys
    rw [keysOf_map_pair]
    decide

/-- Witness for C1 (amended) on a concrete run. -/
theorem c1_sink_columns_witness :
    keysOf ((main.main_new_rows (.ok [])
        (some [[("Job URL", PyVal.pystr "https://a.co/1?utm=x".toList)]])).headD [])
      = main.TARGET_COLS :=
  c1_sink_columns (.ok [])
    (some [[("Job URL", PyVal.pystr "https://a.co/1?utm=x".toList)]])
    ((main.main_new_rows (.ok [])
        (some [[("Job URL", PyVal.pystr "https://a.co/1?utm=x".toList)]])).headD [])
    (by decide)

/-- C2: for every batch and existing URL set, no row of the
deduplicated output has a normalized URL in the existing set, and no
two output rows share a normalized URL. -/
theorem c2_dedupe_correct (batch : List Row) (existing : List Str) :
    (∀ r ∈ main.dedupe batch existing,
        normalize_url (main.urlOf r) ∉ existing)
    ∧ (main.dedupe batch existing).Pairwise
        (fun a b => normalize_url (main.urlOf a) ≠ normalize_url (main.urlOf b)) := by
  constructor
  · intro r hr
    rw [main.dedupe] at hr
    have hf := List.mem_filter.mp hr
    have hmem := mem_of_mem_dropDupFirst _ _ _ _ hf.1
    rw [(url_stage_mem_props batch r hmem).2]
    simpa using hf.2
  · rw [main.dedupe]
    have hs : List.Sublist
        ((dropDupFirst main.urlKey [] (main.url_stage batch)).filter
          (fun r => !(existing.contains (main.urlOf r))))
        (dropDupFirst main.urlKey [] (main.url_stage batch)) :=
      List.filter_sublist _
    have hpw := (pairwise_dropDupFirst main.urlKey []
      (main.url_stage batch)).sublist hs
    refine List.Pairwise.imp_of_mem ?_ hpw
    intro a b ha hb hne
    have hma := mem_of_mem_dropDupFirst _ _ _ _ (List.mem_filter.mp ha).1
    have hmb := mem_of_mem_dropDupFirst _ _ _ _ (List.mem_filter.mp hb).1
    have hpa := url_stage_mem_props batch a hma
    have hpb := url_stage_mem_props batch b hmb
    rw [hpa.2, hpb.2]
    intro heq
    exact hne (by rw [hpa.1, hpb.1, heq])

/-- Witness for C2 at a concrete batch and existing set. -/
theorem c2_dedupe_correct_witness :
    normalize_url (main.urlOf [("Job URL", PyVal.pystr "https://a.co/1".toList)])
      ∉ (["https://b.co/2".toList] : List Str) :=
  (c2_dedupe_correct [[("Job URL", PyVal.pystr "https://a.co/1?u=1".toList)]]
      ["https://b.co/2".toList]).1
    [("Job URL", PyVal.pystr "https://a.co/1".toList)] (by decide)

/-- C7: deduplication is idempotent — applying `dedupe` to its own
output with the same existing set returns that output unchanged (and,
the embedding being pure, `existing` is never mutated). -/
theorem c7_dedupe_idempotent (batch : List Row) (existing : List Str) :
    main.dedupe (main.dedupe batch existing) existing
      = main.dedupe batch existing := by
  have hsub : ∀ r ∈ main.dedupe batch existing, r ∈ main.url_stage batch := by
    intro r hr
    rw [main.dedupe] at hr
    exact mem_of_mem_dropDupFirst _ _ _ _ (List.mem_filter.mp hr).1
  have hstage : main.url_stage (main.dedupe batch existing)
      = main.dedupe batch existing := by
    rw [main.url_stage]
    exact (List.map_congr_left
      (fun r hr => setCol_of_mem_url_stage batch r (hsub r hr))).trans
      (List.map_id _)
  have hpw : (main.dedupe batch existing).Pairwise
      (fun a b => main.urlKey a ≠ main.urlKey b) := by
    rw [main.dedupe]
    have hs : List.Sublist
        ((dropDupFirst main.urlKey [] (main.url_stage batch)).filter
          (fun r => !(existing.contains (main.urlOf r))))
        (dropDupFirst main.urlKey [] (main.url_stage batch)) :=
      List.filter_sublist _
    exact (pairwise_dropDupFirst main.urlKey [] (main.url_stage batch)).sublist hs
  conv_lhs => rw [main.dedupe]
  rw [hstage,
    dropDupFirst_eq_self main.urlKey _ hpw []
      (fun r _ => List.not_mem_nil _)]
  refine List.filter_eq_self.mpr ?_
  intro r hr
  rw [main.dedupe] at hr
  exact (List.mem_filter.mp hr).2

/-- C5: if one adapter raises on every call and another succeeds,
aggregation returns exactly the successful adapter's (normalized,
filtered) rows.  With a registry in which `remotive` always raises and
`remoteok` returns `items`, `scrape_jobs` equals the run over the
registry containing only `remoteok`, and both equal the post-processed
(URL-stringified, recency-filtered, reordered) rows built from `items`
— the failing adapter contributes zero rows and the run returns
normally instead of aborting. -/
theorem c5_adapter_isolation (today : Str) (iso rfc : jobspy.Parser)
    (now : Int) (err : Str) (fB : jobspy.Adapter) (q loc : PyVal)
    (nres hours : Int) (items : List Row)
    (hB : fB q loc nres = .ok items) :
    jobspy.scrape_jobs (envAB err fB) today iso rfc now
        ["remotive", "remoteok"] q loc nres hours
      = jobspy.scrape_jobs (envOnlyB fB) today iso rfc now
          ["remoteok"] q loc nres hours
    ∧ jobspy.scrape_jobs (envAB err fB) today iso rfc now
        ["remotive", "remoteok"] q loc nres hours
      = (if (jobspy.rows_from_items today items "RemoteOK").isEmpty then []
         else jobspy.post_stage iso rfc (now - hours * 3600)
           (jobspy.rows_from_items today items "RemoteOK")) := by
  have e1 : toLowerString "remotive" = "remotive" := by decide
  have e2 : toLowerString "remoteok" = "remoteok" := by decide
  have e3 : jobspy.friendlyOf "remoteok" = "RemoteOK" := by decide
  constructor
  · simp [jobspy.scrape_jobs, e1, e2, envAB, envOnlyB, raisingAdapter, hB,
      jobspy.PAYWALLED_OR_LOGIN]
  · simp [jobspy.scrape_jobs, e1, e2, e3, envAB, envOnlyB, raisingAdapter, hB,
      jobspy.PAYWALLED_OR_LOGIN]

/-- Witness for C5 with a concrete raising adapter and a concrete
succeeding adapter. -/
theorem c5_adapter_isolation_witness :
    jobspy.scrape_jobs (envAB "boom".toList okAdapter) "2024-01-01".toList
        (fun _ => none) (fun _ => none) 0 ["remotive", "remoteok"]
        .pynone .pynone 12 24
      = jobspy.scrape_jobs (envOnlyB okAdapter) "2024-01-01".toList
          (fun _ => none) (fun _ => none) 0 ["remoteok"]
          .pynone .pynone 12 24 :=
  (c5_adapter_isolation "2024-01-01".toList (fun _ => none) (fun _ => none) 0
    "boom".toList okAdapter .pynone .pynone 12 24
    [[("url", PyVal.pystr "https://x.co/j/1".toList)]] rfl).1
